import Mathlib

/-!
# Verification of `prisma-extension-pack`

A shallow embedding, in Lean 4, of the control-flow and sampling logic of the
`prisma-extension-pack` library (transaction controller `$begin` /
`$commit` / `$rollback`, the `RetryTransactions` retry adapter, the sampling
helpers `findRandom` / `findManyRandom`, the `paginate` helper and the
not-found-tolerant mutation wrappers), together with theorems settling the
specification's claims about that code.

The underlying data store is modelled as a fixed list of rows; rejection
values of the host language's promises are modelled by small inductive types;
the random source is an abstract function giving, at each step, the value of
`Math.floor(Math.random() * n)` for the current population size `n`.
-/

/-! ## Transaction controller: rejection values and the rollback sentinel

`const ROLLBACK = { [Symbol.for("prisma.client.extension.rollback")]: true }`
is a process-unique marker object compared by reference (`e === ROLLBACK`).
We model the universe of promise-rejection values by an inductive type with a
dedicated constructor for the sentinel: reference equality with `ROLLBACK`
holds exactly for the sentinel constructor, and every other rejection value
(a real application error) lives in the `other` constructor.  -/

inductive RejectValue where
  | rollbackSentinel : RejectValue
  | other : String → RejectValue
deriving DecidableEq, Repr

/-- The `ROLLBACK` marker object of the source. -/
def ROLLBACK : RejectValue := RejectValue.rollbackSentinel

/-- Outcome of a settled promise: fulfilled (with the unit value
`undefined`) or rejected with some value. -/
abbrev PromiseOutcome := Except RejectValue Unit

instance : DecidableEq PromiseOutcome := fun a b =>
  match a, b with
  | Except.ok _, Except.ok _ => isTrue rfl
  | Except.ok _, Except.error _ => isFalse (by simp)
  | Except.error _, Except.ok _ => isFalse (by simp)
  | Except.error e, Except.error f =>
    if h : e = f then isTrue (by rw [h]) else isFalse (by simp [h])

/-- `commit = () => _res(undefined)`: the commit decision fulfills the
decision promise. -/
def commitDecision : PromiseOutcome := Except.ok ()

/-- `rollback = () => _rej(ROLLBACK)`: the rollback decision rejects the
decision promise with the sentinel. -/
def rollbackDecision : PromiseOutcome := Except.error ROLLBACK

/-- The catch at the transaction-callback boundary:
`txPromise.catch((e) => { if (e === ROLLBACK) return; throw e; })`.
Given the outcome of the decision promise, it produces the outcome the
callback returns to `prisma.$transaction`. -/
def txCallbackCatch (decision : PromiseOutcome) : PromiseOutcome :=
  match decision with
  | Except.ok u => Except.ok u
  | Except.error e => if e = ROLLBACK then Except.ok () else Except.error e

/-! ## Transaction controller: order of effects in `$begin`

`$begin` first creates the `txClient` promise (availability of the
transactional context), then the `txPromise` (the commit/rollback decision),
and only then checks whether the underlying client exposes a `$transaction`
function; if it does, it invokes it, otherwise it throws
`new Error("Transactions are not supported by this client")`.
We record that order of effects as an event trace. -/

inductive BeginEvent where
  | createTxClientPromise : BeginEvent
  | createDecisionPromise : BeginEvent
  | callTransaction : BeginEvent
  | throwUnsupported : BeginEvent
deriving DecidableEq, Repr

/-- The sequence of effects `$begin` performs, as a function of whether the
underlying client exposes a scoped-transaction function
(`"$transaction" in prisma && typeof prisma.$transaction === "function"`). -/
def beginTrace (supportsTx : Bool) : List BeginEvent :=
  [BeginEvent.createTxClientPromise, BeginEvent.createDecisionPromise] ++
    (if supportsTx then [BeginEvent.callTransaction]
     else [BeginEvent.throwUnsupported])

/-! ## Transaction handle: promise settlement and `$commit` / `$rollback`

The decision promise is a host-language promise: its executor's `_res` /
`_rej` settle it only if it is still pending; once settled, further calls to
either are silent no-ops (standard promise semantics the source relies on).
The proxy returned by `$begin` exposes `$commit` and `$rollback`, which call
`commit()` / `rollback()` and both return the same `tx` promise created by
the single `prisma.$transaction(...)` call. -/

inductive PromiseState where
  | pending : PromiseState
  | settled : PromiseOutcome → PromiseState
deriving DecidableEq, Repr

/-- Settling a promise: the first settlement wins, later ones are no-ops. -/
def settle (s : PromiseState) (o : PromiseOutcome) : PromiseState :=
  match s with
  | PromiseState.pending => PromiseState.settled o
  | PromiseState.settled o0 => PromiseState.settled o0

inductive HandleOp where
  | commit : HandleOp
  | rollback : HandleOp
deriving DecidableEq, Repr

/-- The outcome each handle operation settles the decision promise with:
`$commit` fulfills it, `$rollback` rejects it with the sentinel. -/
def decisionOf : HandleOp → PromiseOutcome
  | HandleOp.commit => commitDecision
  | HandleOp.rollback => rollbackDecision

/-- The one `tx` completion-tracking promise of a handle (the return value of
the single `prisma.$transaction(...)` call); both `$commit` and `$rollback`
return it. -/
inductive TxCompletion where
  | tx : TxCompletion
deriving DecidableEq, Repr

/-- One `$commit`/`$rollback` call on a handle: it settles the decision
promise with the corresponding outcome and returns the `tx` promise. -/
def handleCall (s : PromiseState) (op : HandleOp) : PromiseState × TxCompletion :=
  (settle s (decisionOf op), TxCompletion.tx)

/-- The decision-promise state after a sequence of `$commit`/`$rollback`
calls on one handle. -/
def applyOps (ops : List HandleOp) (s : PromiseState) : PromiseState :=
  ops.foldl (fun st op => (handleCall st op).1) s

/-! ## Retry adapter

`RetryTransactions` wraps `prisma.$transaction` in
`backOff(op, { retry: (e) => e?.code === "P2034", ...options })`: the
default classifier retries only the write-conflict/deadlock code `P2034`,
and a user-supplied `options.retry` (spread after the default) replaces it.
Prisma errors carry an optional `code` string (`e?.code` is `undefined` when
absent). -/

structure PrismaErr where
  code : Option String
deriving DecidableEq, Repr

/-- The default retry classifier `(e) => e?.code === "P2034"`. -/
def retryClassifierDefault (e : PrismaErr) : Bool :=
  e.code == some "P2034"

/-- The classifier actually passed to `backOff`: the object spread
`{ retry: default, ...options }` lets a user-supplied classifier replace the
default. -/
def effectiveClassifier (userRetry : Option (PrismaErr → Bool)) :
    PrismaErr → Bool :=
  userRetry.getD retryClassifierDefault

/-- Modelled from the spec: the external `exponential-backoff` dependency's
retry loop (§4.2), with its delay schedule abstracted away.  `op i` is the
outcome of attempt number `i`; on failure the classifier is consulted; if it
approves and retries remain, the next attempt runs, otherwise the error
propagates unchanged.  The result is paired with the number of attempts
executed. -/
def backOffRun (retry : PrismaErr → Bool) (op : Nat → Except PrismaErr α) :
    Nat → Nat → Except PrismaErr α × Nat
  | i, retriesLeft =>
    match op i with
    | Except.ok a => (Except.ok a, 1)
    | Except.error e =>
      match retriesLeft with
      | 0 => (Except.error e, 1)
      | r + 1 =>
        if retry e then
          ((backOffRun retry op (i + 1) r).1, (backOffRun retry op (i + 1) r).2 + 1)
        else (Except.error e, 1)

/-- A `$transaction` call through the `RetryTransactions` extension:
`backOff` applied from attempt `0` with the effective classifier. -/
def retryTransactionsRun (userRetry : Option (PrismaErr → Bool))
    (op : Nat → Except PrismaErr α) (retriesLeft : Nat) :
    Except PrismaErr α × Nat :=
  backOffRun (effectiveClassifier userRetry) op 0 retriesLeft

/-! ## Not-found-tolerant mutation wrappers

`updateIgnoreOnNotFound` / `deleteIgnoreOnNotFound` run the underlying
mutation in a `try`; a failure with `err?.code === "P2025"` becomes a `null`
result, any other failure is re-thrown, and a success returns the mutated
record.  We model the underlying mutation by its outcome. -/

def updateIgnoreOnNotFound (res : Except PrismaErr ρ) :
    Except PrismaErr (Option ρ) :=
  match res with
  | Except.ok r => Except.ok (some r)
  | Except.error err =>
    if err.code = some "P2025" then Except.ok none else Except.error err

def deleteIgnoreOnNotFound (res : Except PrismaErr ρ) :
    Except PrismaErr (Option ρ) :=
  match res with
  | Except.ok r => Except.ok (some r)
  | Except.error err =>
    if err.code = some "P2025" then Except.ok none else Except.error err

/-! ## Pagination helper

`paginate` destructures `const { pagination, ...operationArgs } = args ?? {}`
and resolves
`take = args?.pagination?.take ?? operationArgs?.take ?? 10`,
`skip = args?.pagination?.skip ?? operationArgs?.skip ?? 0`,
then calls `findMany({ ...operationArgs, skip, take })`.  Absent fields are
`undefined`, modelled by `Option`; JS numbers here are modelled by `Int`. -/

structure Pagination where
  take : Option Int
  skip : Option Int
deriving DecidableEq, Repr

structure PaginateArgs where
  take : Option Int
  skip : Option Int
  pagination : Option Pagination
deriving DecidableEq, Repr

/-- `take = args?.pagination?.take ?? operationArgs?.take ?? 10`
(`operationArgs` is `args` minus the `pagination` key, so its `take` is the
base query's `take`). -/
def paginateTake (args : Option PaginateArgs) : Int :=
  ((args.bind fun a => a.pagination.bind fun p => p.take).getD
    ((args.bind fun a => a.take).getD 10))

/-- `skip = args?.pagination?.skip ?? operationArgs?.skip ?? 0`. -/
def paginateSkip (args : Option PaginateArgs) : Int :=
  ((args.bind fun a => a.pagination.bind fun p => p.skip).getD
    ((args.bind fun a => a.skip).getD 0))

/-- The `skip`/`take` pair `paginate` passes to the bounded `findMany`
fetch. -/
def paginateFetchWindow (args : Option PaginateArgs) : Int × Int :=
  (paginateSkip args, paginateTake args)

/-! ## Sampling engine

The data store is a fixed list of rows (the no-concurrent-mutation
precondition of the claims); each row carries its `id` string and a payload.
`count` and `findFirst` are the underlying client's operations over that
store: `count` is the number of rows matching a filter, `findFirst` with
`skip: k` returns the row after skipping `k` matches in the store's natural
order.  The random source `rf` abstracts `Math.random()`: `rf i n` is the
value of `Math.floor(Math.random() * n)` at the `i`-th draw with current
population size `n` (so `rf i n < n` whenever `0 < n`). -/

structure Row where
  id : String
  payload : Int
deriving DecidableEq, Repr

/-- `count({ where })`. -/
def count (db : List Row) (w : Row → Bool) : Nat :=
  (db.filter w).length

/-- `findFirst({ where, skip })`: the row at offset `skip` among the matches,
if any. -/
def findFirst (db : List Row) (w : Row → Bool) (skip : Nat) : Option Row :=
  (db.filter w)[skip]?

/-- A caller-supplied `where` object, as `findManyRandom` manipulates it: the
optional top-level `id:` key (a condition on the row's id) and the predicate
denoted by all its other keys.  Keeping the `id` key separate is what lets
the object spread below be modelled faithfully. -/
structure WhereArg where
  idCond : Option (String → Bool)
  rest : Row → Bool

/-- A row matching the caller's `where` object: its `id:` condition (when
present) and all other keys must hold. -/
def whereMatch (wa : WhereArg) (r : Row) : Bool :=
  (match wa.idCond with
   | none => true
   | some c => c r.id) && wa.rest r

/-- The augmented filter of `findManyRandom`:
`where = { ...where, id: { notIn: rowIds } }`.  The `id:` key written after
the spread REPLACES any caller-supplied top-level `id` condition (only the
other keys, `wa.rest`, survive), and `rowIds` is the mutable array the loop
pushes drawn identifiers onto (the `where` object aliases it, so every draw
sees the current exclusion list). -/
def matchesW (wa : WhereArg) (rowIds : List String) (r : Row) : Bool :=
  wa.rest r && !(rowIds.contains r.id)

/-- Result of the `findManyRandom` loop: the accumulated `rows`, whether the
`console.error` diagnostic was hit (a draw returned no row), and the
`(numRows, rowIds)` state at each loop-condition check, recorded for the
invariant claims. -/
structure FmrResult where
  rows : List Row
  diag : Bool
  trace : List (Int × List String)
deriving DecidableEq, Repr

/-- The loop `for (let i = 0; i < num && numRows > 0; ++i)` of
`findManyRandom`.  `fuel` is `num - i` (the remaining iterations allowed by
`i < num`); `numRows` is the JS counter (a signed number, hence `Int`);
`rowIds` is the exclusion list.  Each iteration fetches
`findFirst({ select, where, skip: Math.max(0, Math.floor(Math.random() * numRows)) })`;
on `null` it logs the diagnostic and breaks, otherwise it appends the row,
pushes its id and decrements `numRows`. -/
def fmrLoop (db : List Row) (wa : WhereArg) (rf : Nat → Nat → Nat) :
    Nat → Nat → Int → List String → FmrResult
  | 0, _, numRows, rowIds => ⟨[], false, [(numRows, rowIds)]⟩
  | fuel + 1, i, numRows, rowIds =>
    if 0 < numRows then
      match findFirst db (matchesW wa rowIds) (max 0 (rf i numRows.toNat)) with
      | none => ⟨[], true, [(numRows, rowIds)]⟩
      | some row =>
        let r := fmrLoop db wa rf fuel (i + 1) (numRows - 1) (rowIds ++ [row.id])
        ⟨row :: r.rows, r.diag, (numRows, rowIds) :: r.trace⟩
    else ⟨[], false, [(numRows, rowIds)]⟩

/-- `findManyRandom(num, { where })`: count the population under the caller's
original `where` (line 139 runs before the spread), then run the draw loop —
whose filter is the spread object — starting from an empty exclusion list. -/
def findManyRandom (db : List Row) (wa : WhereArg) (rf : Nat → Nat → Nat)
    (num : Nat) : List Row :=
  (fmrLoop db wa rf num 0 (count db (whereMatch wa) : Int) []).rows

/-- The state trace of a `findManyRandom` call. -/
def findManyRandomTrace (db : List Row) (wa : WhereArg)
    (rf : Nat → Nat → Nat) (num : Nat) : List (Int × List String) :=
  (fmrLoop db wa rf num 0 (count db (whereMatch wa) : Int) []).trace

/-- `findRandom(args)`: count the matches, then
`findFirst({ ...args, skip: Math.max(0, Math.floor(Math.random() * numRows)) })`. -/
def findRandom (db : List Row) (w : Row → Bool) (rf : Nat → Nat → Nat) :
    Option Row :=
  let numRows := count db w
  findFirst db w (max 0 (rf 0 numRows))

/-! ## Theorems: transaction controller -/

/-- C1: the catch at the transaction callback boundary intercepts exactly
the rollback sentinel.  A `$rollback` decision rejects the decision promise
with the sentinel, the callback converts that rejection into a normal
(non-erroring) completion of the transaction scope — so the sentinel never
surfaces as an error — while a rejection with any other value propagates
unchanged. -/
theorem rollback_sentinel_boundary :
    rollbackDecision = Except.error ROLLBACK ∧
    txCallbackCatch rollbackDecision = Except.ok () ∧
    (∀ e : RejectValue, e ≠ ROLLBACK →
      txCallbackCatch (Except.error e) = Except.error e) := by
  refine ⟨rfl, rfl, ?_⟩
  intro e he
  simp [txCallbackCatch, he]

/-- C1 witness: concrete evaluation — rollback completes normally, a real
error rejection passes through unchanged. -/
theorem rollback_sentinel_boundary_witness :
    txCallbackCatch rollbackDecision = Except.ok () ∧
    txCallbackCatch (Except.error (RejectValue.other "db failure")) =
      Except.error (RejectValue.other "db failure") :=
  ⟨rollback_sentinel_boundary.2.1,
   rollback_sentinel_boundary.2.2 (RejectValue.other "db failure") (by decide)⟩

/-- C4 counterexample: on a client without scoped-transaction support,
`$begin` creates both coordination promises first and only then throws the
"unsupported" error, so the failure does not happen before the primitives
are created: in the effect trace, the throw does not precede either
creation event. -/
theorem begin_unsupported_order_counterexample :
    beginTrace false =
      [BeginEvent.createTxClientPromise, BeginEvent.createDecisionPromise,
        BeginEvent.throwUnsupported] ∧
    ¬ ((beginTrace false).indexOf BeginEvent.throwUnsupported <
        (beginTrace false).indexOf BeginEvent.createTxClientPromise) ∧
    ¬ ((beginTrace false).indexOf BeginEvent.throwUnsupported <
        (beginTrace false).indexOf BeginEvent.createDecisionPromise) := by
  decide

/-- C4 amended: when the underlying client does not expose a
scoped-transaction function, `$begin` fails with the "unsupported" error —
after the two coordination promises have been created, but without ever
invoking the scoped-transaction primitive (no transaction is opened); on a
supporting client no such error is raised. -/
theorem begin_unsupported_amended :
    BeginEvent.throwUnsupported ∈ beginTrace false ∧
    (beginTrace false).getLast? = some BeginEvent.throwUnsupported ∧
    BeginEvent.callTransaction ∉ beginTrace false ∧
    BeginEvent.throwUnsupported ∉ beginTrace true ∧
    BeginEvent.callTransaction ∈ beginTrace true := by
  decide

/-- Settling is absorbed by an already-settled decision promise. -/
theorem applyOps_settled (ops : List HandleOp) (o : PromiseOutcome) :
    applyOps ops (PromiseState.settled o) = PromiseState.settled o := by
  induction ops with
  | nil => rfl
  | cons a t ih =>
    simpa [applyOps, handleCall, settle] using ih

/-- C10: the first `$commit` or `$rollback` call on a handle fixes the
transaction outcome — the decision promise settles at most once, any later
`$commit`/`$rollback` call is a silent no-op that leaves the first decision
in place, and every such call returns the same completion-tracking object
(the one `tx` promise). -/
theorem decision_settles_once (op : HandleOp) (ops : List HandleOp) :
    applyOps (op :: ops) PromiseState.pending =
      PromiseState.settled (decisionOf op) ∧
    (∀ o o', settle (PromiseState.settled o) o' = PromiseState.settled o) ∧
    (∀ s op', (handleCall s op').2 = TxCompletion.tx) := by
  refine ⟨?_, fun o o' => rfl, fun s op' => rfl⟩
  simpa [applyOps, handleCall, settle] using applyOps_settled ops (decisionOf op)

/-! ## Theorems: retry adapter -/

/-- One-step unfolding of `backOffRun`: a successful attempt stops. -/
theorem backOffRun_ok (retry : PrismaErr → Bool) (op : Nat → Except PrismaErr α)
    (i r : Nat) (a : α) (h : op i = Except.ok a) :
    backOffRun retry op i r = (Except.ok a, 1) := by
  rw [backOffRun.eq_def]; dsimp only; rw [h]

/-- One-step unfolding of `backOffRun`: with no retries left the error
propagates. -/
theorem backOffRun_error_zero (retry : PrismaErr → Bool)
    (op : Nat → Except PrismaErr α) (i : Nat) (e : PrismaErr)
    (h : op i = Except.error e) :
    backOffRun retry op i 0 = (Except.error e, 1) := by
  rw [backOffRun.eq_def]; dsimp only; rw [h]

/-- One-step unfolding of `backOffRun`: a retry-eligible failure leads to a
further attempt. -/
theorem backOffRun_error_yes (retry : PrismaErr → Bool)
    (op : Nat → Except PrismaErr α) (i r : Nat) (e : PrismaErr)
    (h : op i = Except.error e) (hc : retry e = true) :
    backOffRun retry op i (r + 1) =
      ((backOffRun retry op (i + 1) r).1, (backOffRun retry op (i + 1) r).2 + 1) := by
  rw [backOffRun.eq_def]; dsimp only; rw [h]
  simp [hc]

/-- One-step unfolding of `backOffRun`: a failure the classifier rejects
propagates at once. -/
theorem backOffRun_error_no (retry : PrismaErr → Bool)
    (op : Nat → Except PrismaErr α) (i r : Nat) (e : PrismaErr)
    (h : op i = Except.error e) (hc : retry e = false) :
    backOffRun retry op i (r + 1) = (Except.error e, 1) := by
  rw [backOffRun.eq_def]; dsimp only; rw [h]
  simp [hc]

/-- Every `backOff` run makes at least one attempt. -/
theorem backOffRun_attempts_pos (retry : PrismaErr → Bool)
    (op : Nat → Except PrismaErr α) (i r : Nat) :
    1 ≤ (backOffRun retry op i r).2 := by
  cases h : op i with
  | ok a => simp [backOffRun_ok retry op i r a h]
  | error e =>
    cases r with
    | zero => simp [backOffRun_error_zero retry op i e h]
    | succ r' =>
      cases hr : retry e with
      | true => simp [backOffRun_error_yes retry op i r' e h hr]
      | false => simp [backOffRun_error_no retry op i r' e h hr]

/-- C7: a failed transaction attempt is retried iff the classifier marks the
failure retry-eligible; the default classifier marks exactly the
write-conflict/deadlock code `P2034`; any other failure propagates to the
caller after a single attempt, unchanged. -/
theorem retry_only_on_classifier (op : Nat → Except PrismaErr α)
    (retriesLeft : Nat) (e : PrismaErr) :
    (retryClassifierDefault e = true ↔ e.code = some "P2034") ∧
    (op 0 = Except.error e → retryClassifierDefault e = false →
      retryTransactionsRun none op retriesLeft = (Except.error e, 1)) ∧
    (op 0 = Except.error e → e.code = some "P2034" →
      2 ≤ (retryTransactionsRun none op (retriesLeft + 1)).2) := by
  refine ⟨?_, ?_, ?_⟩
  · simp [retryClassifierDefault]
  · intro h0 hcls
    cases retriesLeft with
    | zero =>
      simp [retryTransactionsRun, effectiveClassifier,
        backOffRun_error_zero _ op 0 e h0]
    | succ r' =>
      simp [retryTransactionsRun, effectiveClassifier,
        backOffRun_error_no _ op 0 r' e h0 hcls]
  · intro h0 hcode
    have hcls : retryClassifierDefault e = true := by
      simp [retryClassifierDefault, hcode]
    have hpos := backOffRun_attempts_pos retryClassifierDefault op 1 retriesLeft
    simp [retryTransactionsRun, effectiveClassifier,
      backOffRun_error_yes _ op 0 retriesLeft e h0 hcls]
    omega

/-- C7 witness: a `P2002` failure propagates after exactly one attempt; a
`P2034` failure is retried (at least two attempts are made). -/
theorem retry_only_on_classifier_witness :
    retryTransactionsRun none
        (fun _ => (Except.error (PrismaErr.mk (some "P2002")) : Except PrismaErr Unit)) 3 =
      (Except.error (PrismaErr.mk (some "P2002")), 1) ∧
    2 ≤ (retryTransactionsRun none
        (fun _ => (Except.error (PrismaErr.mk (some "P2034")) : Except PrismaErr Unit)) 3).2 :=
  ⟨(retry_only_on_classifier
      (fun _ => (Except.error (PrismaErr.mk (some "P2002")) : Except PrismaErr Unit)) 3
      (PrismaErr.mk (some "P2002"))).2.1 rfl (by decide),
   (retry_only_on_classifier
      (fun _ => (Except.error (PrismaErr.mk (some "P2034")) : Except PrismaErr Unit)) 2
      (PrismaErr.mk (some "P2034"))).2.2 rfl rfl⟩

/-! ## Theorems: not-found-tolerant wrappers -/

/-- C8: `updateIgnoreOnNotFound` / `deleteIgnoreOnNotFound` return `null`
iff the underlying mutation failed with the record-not-found code `P2025`;
a failure with any other code propagates unchanged; a successful mutation
returns the mutated record. -/
theorem ignore_not_found_spec (res : Except PrismaErr ρ) :
    (updateIgnoreOnNotFound res = Except.ok none ↔
      ∃ e, res = Except.error e ∧ e.code = some "P2025") ∧
    (deleteIgnoreOnNotFound res = Except.ok none ↔
      ∃ e, res = Except.error e ∧ e.code = some "P2025") ∧
    (∀ r, res = Except.ok r →
      updateIgnoreOnNotFound res = Except.ok (some r) ∧
      deleteIgnoreOnNotFound res = Except.ok (some r)) ∧
    (∀ e, res = Except.error e → e.code ≠ some "P2025" →
      updateIgnoreOnNotFound res = Except.error e ∧
      deleteIgnoreOnNotFound res = Except.error e) := by
  refine ⟨?_, ?_, ?_, ?_⟩
  · cases res with
    | ok r => simp [updateIgnoreOnNotFound]
    | error e =>
      by_cases h : e.code = some "P2025" <;>
        simp [updateIgnoreOnNotFound, h]
  · cases res with
    | ok r => simp [deleteIgnoreOnNotFound]
    | error e =>
      by_cases h : e.code = some "P2025" <;>
        simp [deleteIgnoreOnNotFound, h]
  · rintro r rfl
    exact ⟨rfl, rfl⟩
  · rintro e rfl he
    simp [updateIgnoreOnNotFound, deleteIgnoreOnNotFound, he]

/-- C8 witness: concrete evaluations — a `P2025` failure becomes `null`, a
`P2003` failure propagates, a success returns the record. -/
theorem ignore_not_found_witness :
    updateIgnoreOnNotFound (Except.error (PrismaErr.mk (some "P2025")) : Except PrismaErr Int) =
      Except.ok none ∧
    deleteIgnoreOnNotFound (Except.error (PrismaErr.mk (some "P2003")) : Except PrismaErr Int) =
      Except.error (PrismaErr.mk (some "P2003")) ∧
    updateIgnoreOnNotFound (Except.ok (5 : Int)) = Except.ok (some 5) :=
  ⟨(ignore_not_found_spec (Except.error (PrismaErr.mk (some "P2025")) : Except PrismaErr Int)).1.mpr
      ⟨PrismaErr.mk (some "P2025"), rfl, rfl⟩,
   ((ignore_not_found_spec (Except.error (PrismaErr.mk (some "P2003")) : Except PrismaErr Int)).2.2.2
      (PrismaErr.mk (some "P2003")) rfl (by decide)).2,
   ((ignore_not_found_spec (Except.ok (5 : Int))).2.2.1 5 rfl).1⟩

/-! ## Theorems: pagination -/

/-- C5: `paginate` resolves `take`/`skip` with the precedence: explicit
pagination argument, then the same-named field of the base query, then the
defaults `take = 10`, `skip = 0`; in particular, with no pagination argument
the base query's own `take`/`skip` are used. -/
theorem paginate_precedence (a : PaginateArgs) (p : Pagination) (t s : Int) :
    (a.pagination = some p → p.take = some t → paginateTake (some a) = t) ∧
    (a.pagination = some p → p.skip = some s → paginateSkip (some a) = s) ∧
    (a.pagination.bind Pagination.take = none → a.take = some t →
      paginateTake (some a) = t) ∧
    (a.pagination.bind Pagination.skip = none → a.skip = some s →
      paginateSkip (some a) = s) ∧
    (a.pagination.bind Pagination.take = none → a.take = none →
      paginateTake (some a) = 10) ∧
    (a.pagination.bind Pagination.skip = none → a.skip = none →
      paginateSkip (some a) = 0) ∧
    paginateTake none = 10 ∧ paginateSkip none = 0 := by
  refine ⟨?_, ?_, ?_, ?_, ?_, ?_, rfl, rfl⟩
  · intro h1 h2; simp [paginateTake, h1, h2]
  · intro h1 h2; simp [paginateSkip, h1, h2]
  · intro h1 h2; simp [paginateTake, h1, h2]
  · intro h1 h2; simp [paginateSkip, h1, h2]
  · intro h1 h2; simp [paginateTake, h1, h2]
  · intro h1 h2; simp [paginateSkip, h1, h2]

/-- C5 witness: concrete precedence checks — pagination argument beats the
base query's fields, the base query's fields beat the defaults, and the
defaults apply with no arguments at all. -/
theorem paginate_precedence_witness :
    paginateTake (some (PaginateArgs.mk (some 7) (some 3)
      (some (Pagination.mk (some 2) (some 5))))) = 2 ∧
    paginateSkip (some (PaginateArgs.mk (some 7) (some 3)
      (some (Pagination.mk (some 2) (some 5))))) = 5 ∧
    paginateTake (some (PaginateArgs.mk (some 7) (some 3) none)) = 7 ∧
    paginateSkip (some (PaginateArgs.mk (some 7) (some 3) none)) = 3 ∧
    paginateTake none = 10 ∧ paginateSkip none = 0 :=
  ⟨(paginate_precedence (PaginateArgs.mk (some 7) (some 3)
      (some (Pagination.mk (some 2) (some 5)))) (Pagination.mk (some 2) (some 5)) 2 5).1 rfl rfl,
   (paginate_precedence (PaginateArgs.mk (some 7) (some 3)
      (some (Pagination.mk (some 2) (some 5)))) (Pagination.mk (some 2) (some 5)) 2 5).2.1 rfl rfl,
   (paginate_precedence (PaginateArgs.mk (some 7) (some 3) none)
      (Pagination.mk none none) 7 3).2.2.1 rfl rfl,
   (paginate_precedence (PaginateArgs.mk (some 7) (some 3) none)
      (Pagination.mk none none) 7 3).2.2.2.1 rfl rfl,
   (paginate_precedence (PaginateArgs.mk none none none)
      (Pagination.mk none none) 0 0).2.2.2.2.2.2⟩

/-- C6 counterexample: `paginate` does not clamp — a negative caller-supplied
`take`/`skip` reaches the bounded fetch unchanged, so the resolved window is
not non-negative. -/
theorem paginate_clamp_counterexample :
    paginateTake (some (PaginateArgs.mk none none
      (some (Pagination.mk (some (-5)) (some (-7)))))) = -5 ∧
    paginateSkip (some (PaginateArgs.mk none none
      (some (Pagination.mk (some (-5)) (some (-7)))))) = -7 ∧
    ¬ (0 ≤ (paginateFetchWindow (some (PaginateArgs.mk none none
        (some (Pagination.mk (some (-5)) (some (-7))))))).1) ∧
    ¬ (0 ≤ (paginateFetchWindow (some (PaginateArgs.mk none none
        (some (Pagination.mk (some (-5)) (some (-7))))))).2) := by
  decide

/-- C6 amended: the resolved `skip`/`take` are passed to the bounded fetch
unchanged — no clamping is applied, so a negative supplied value is used
as-is; only the defaults themselves (`skip = 0`, `take = 10`) are
non-negative. -/
theorem paginate_window_passthrough (a : PaginateArgs) (p : Pagination)
    (t s : Int) (hp : a.pagination = some p) (ht : p.take = some t)
    (hs : p.skip = some s) :
    paginateFetchWindow (some a) = (s, t) ∧
    paginateFetchWindow none = (0, 10) := by
  constructor
  · simp [paginateFetchWindow, paginateTake, paginateSkip, hp, ht, hs]
  · rfl

/-- C6 amended witness: the negative window `(-7, -5)` is passed through
verbatim. -/
theorem paginate_window_passthrough_witness :
    paginateFetchWindow (some (PaginateArgs.mk none none
      (some (Pagination.mk (some (-5)) (some (-7)))))) = (-7, -5) ∧
    paginateFetchWindow none = (0, 10) :=
  paginate_window_passthrough
    (PaginateArgs.mk none none (some (Pagination.mk (some (-5)) (some (-7)))))
    (Pagination.mk (some (-5)) (some (-7))) (-5) (-7) rfl rfl rfl

/-! ## Theorems: sampling engine -/

/-- One-step unfolding of the draw loop: fuel exhausted (`i = num`). -/
theorem fmrLoop_zero (db : List Row) (wa : WhereArg) (rf : Nat → Nat → Nat)
    (i : Nat) (n : Int) (ids : List String) :
    fmrLoop db wa rf 0 i n ids = ⟨[], false, [(n, ids)]⟩ := rfl

/-- One-step unfolding of the draw loop: the population counter is
exhausted. -/
theorem fmrLoop_stop (db : List Row) (wa : WhereArg) (rf : Nat → Nat → Nat)
    (fuel i : Nat) (n : Int) (ids : List String) (h : ¬ 0 < n) :
    fmrLoop db wa rf (fuel + 1) i n ids = ⟨[], false, [(n, ids)]⟩ := by
  rw [fmrLoop.eq_def]; dsimp only; rw [if_neg h]

/-- One-step unfolding of the draw loop: a draw returns no row, the
diagnostic is logged and the loop breaks. -/
theorem fmrLoop_none (db : List Row) (wa : WhereArg) (rf : Nat → Nat → Nat)
    (fuel i : Nat) (n : Int) (ids : List String) (h : 0 < n)
    (hf : findFirst db (matchesW wa ids) (max 0 (rf i n.toNat)) = none) :
    fmrLoop db wa rf (fuel + 1) i n ids = ⟨[], true, [(n, ids)]⟩ := by
  rw [fmrLoop.eq_def]; dsimp only; rw [if_pos h, hf]

/-- One-step unfolding of the draw loop: a successful draw appends the row,
pushes its id and decrements the counter. -/
theorem fmrLoop_some (db : List Row) (wa : WhereArg) (rf : Nat → Nat → Nat)
    (fuel i : Nat) (n : Int) (ids : List String) (row : Row) (h : 0 < n)
    (hf : findFirst db (matchesW wa ids) (max 0 (rf i n.toNat)) = some row) :
    fmrLoop db wa rf (fuel + 1) i n ids =
      ⟨row :: (fmrLoop db wa rf fuel (i + 1) (n - 1) (ids ++ [row.id])).rows,
       (fmrLoop db wa rf fuel (i + 1) (n - 1) (ids ++ [row.id])).diag,
       (n, ids) :: (fmrLoop db wa rf fuel (i + 1) (n - 1) (ids ++ [row.id])).trace⟩ := by
  rw [fmrLoop.eq_def]; dsimp only; rw [if_pos h, hf]

/-- Augmenting the exclusion list by one id filters the remaining population
by that id. -/
theorem filter_matchesW_append (db : List Row) (wa : WhereArg)
    (ids : List String) (a : String) :
    db.filter (matchesW wa (ids ++ [a])) =
      (db.filter (matchesW wa ids)).filter (fun r => !(r.id == a)) := by
  rw [List.filter_filter]
  apply List.filter_congr
  intro x hx
  simp [matchesW, List.contains, List.elem_eq_mem, List.mem_append,
    Bool.beq_eq_decide_eq]
  cases hw : wa.rest x <;> cases h1 : decide (x.id ∈ ids) <;>
    cases h2 : decide (x.id = a) <;> simp_all

/-- In a list of rows with pairwise-distinct ids, removing the rows carrying
the id of one member removes exactly that member. -/
theorem length_filter_erase_id (l : List Row) (r : Row)
    (hn : (l.map Row.id).Nodup) (hr : r ∈ l) :
    (l.filter fun x => !(x.id == r.id)).length = l.length - 1 := by
  induction l with
  | nil => cases hr
  | cons b t ih =>
    rw [List.map_cons, List.nodup_cons] at hn
    obtain ⟨hb, ht⟩ := hn
    by_cases hid : b.id = r.id
    · have hfix : t.filter (fun x => !(x.id == r.id)) = t := by
        apply List.filter_eq_self.mpr
        intro x hx
        have hxmem : x.id ∈ t.map Row.id := List.mem_map_of_mem Row.id hx
        have hxe : ¬ (x.id = r.id) := by
          intro hxe
          have hbid : b.id = x.id := by rw [hid, ← hxe]
          exact hb (hbid ▸ hxmem)
        simp [hxe]
      have hpb : (!(b.id == r.id)) = false := by simp [hid]
      rw [List.filter_cons, hpb]
      simp [hfix]
    · have hrt : r ∈ t := by
        rcases List.mem_cons.mp hr with h | h
        · exact absurd (by rw [h] : b.id = r.id) hid
        · exact h
      have hpb : (!(b.id == r.id)) = true := by simp [hid]
      rw [List.filter_cons, hpb]
      have hlen : 1 ≤ t.length :=
        List.length_pos.mpr (List.ne_nil_of_mem hrt)
      simp [ih ht hrt]
      omega

/-- Filtering preserves distinctness of ids. -/
theorem nodup_filter_map_id (db : List Row) (p : Row → Bool)
    (hn : (db.map Row.id).Nodup) : ((db.filter p).map Row.id).Nodup :=
  List.Nodup.sublist (List.Sublist.map Row.id (List.filter_sublist db)) hn

/-- Drawing a row and excluding its id shrinks the matching population by
exactly one (given globally distinct ids). -/
theorem count_matchesW_append (db : List Row) (wa : WhereArg)
    (ids : List String) (row : Row) (hn : (db.map Row.id).Nodup)
    (hrow : row ∈ db.filter (matchesW wa ids)) :
    count db (matchesW wa (ids ++ [row.id])) = count db (matchesW wa ids) - 1 := by
  unfold count
  rw [filter_matchesW_append]
  exact length_filter_erase_id (db.filter (matchesW wa ids)) row
    (nodup_filter_map_id db (matchesW wa ids) hn) hrow

/-- With an empty exclusion list, the spread filter keeps exactly the rows
matching the non-`id` keys of the caller's filter. -/
theorem count_matchesW_nil (db : List Row) (wa : WhereArg) :
    count db (matchesW wa []) = count db wa.rest := by
  unfold count
  congr 1
  apply List.filter_congr
  intro x hx
  simp [matchesW]

/-- When the caller's filter has no top-level `id` condition, it denotes the
same predicate as its non-`id` keys, so both counts agree. -/
theorem count_whereMatch_no_id (db : List Row) (wa : WhereArg)
    (hid : wa.idCond = none) :
    count db (whereMatch wa) = count db wa.rest := by
  unfold count
  congr 1
  apply List.filter_congr
  intro x hx
  simp [whereMatch, hid]

/-- The invariant of the draw loop, for an accurate counter: starting from
`numRows = count` of the population still allowed by the exclusion list,
the loop returns `min fuel numRows` rows, all matching the caller's filter,
all from the store, none with an excluded id, and with pairwise-distinct
ids. -/
theorem fmrLoop_correct (db : List Row) (wa : WhereArg)
    (rf : Nat → Nat → Nat) (hn : (db.map Row.id).Nodup)
    (hrf : ∀ i n, 0 < n → rf i n < n) :
    ∀ fuel i (ids : List String),
      ((fmrLoop db wa rf fuel i (count db (matchesW wa ids) : Int) ids).rows.length =
        min fuel (count db (matchesW wa ids))) ∧
      (∀ r ∈ (fmrLoop db wa rf fuel i (count db (matchesW wa ids) : Int) ids).rows,
        wa.rest r = true ∧ r ∈ db ∧ r.id ∉ ids) ∧
      ((fmrLoop db wa rf fuel i (count db (matchesW wa ids) : Int) ids).rows.map
        Row.id).Nodup := by
  intro fuel
  induction fuel with
  | zero =>
    intro i ids
    rw [fmrLoop_zero]
    simp
  | succ fuel ih =>
    intro i ids
    by_cases hc : 0 < count db (matchesW wa ids)
    · have hcInt : (0 : Int) < (count db (matchesW wa ids) : Int) := by
        exact_mod_cast hc
      have htoNat : ((count db (matchesW wa ids) : Int)).toNat =
          count db (matchesW wa ids) := Int.toNat_natCast _
      have hoffmax : max 0 (rf i ((count db (matchesW wa ids) : Int)).toNat) =
          rf i (count db (matchesW wa ids)) := by
        rw [htoNat]; exact Nat.zero_max _
      have hofflt : rf i (count db (matchesW wa ids)) <
          (db.filter (matchesW wa ids)).length := by
        have hlt := hrf i (count db (matchesW wa ids)) hc
        simpa [count] using hlt
      obtain ⟨row, hff⟩ : ∃ row,
          findFirst db (matchesW wa ids)
            (max 0 (rf i ((count db (matchesW wa ids) : Int)).toNat)) = some row := by
        unfold findFirst
        rw [hoffmax]
        exact ⟨_, List.getElem?_eq_getElem hofflt⟩
      have hrowmem : row ∈ db.filter (matchesW wa ids) := by
        have h2 := hff
        unfold findFirst at h2
        exact List.getElem?_mem h2
      have hrowdb : row ∈ db := (List.mem_filter.mp hrowmem).1
      have hrowW : wa.rest row = true ∧ row.id ∉ ids := by
        have h2 := (List.mem_filter.mp hrowmem).2
        simpa [matchesW] using h2
      have hcnt' : count db (matchesW wa (ids ++ [row.id])) =
          count db (matchesW wa ids) - 1 :=
        count_matchesW_append db wa ids row hn hrowmem
      have hInt : (count db (matchesW wa ids) : Int) - 1 =
          ((count db (matchesW wa (ids ++ [row.id])) : Nat) : Int) := by
        rw [hcnt']
        omega
      rw [fmrLoop_some db wa rf fuel i _ ids row hcInt hff, hInt]
      obtain ⟨ihlen, ihmem, ihnodup⟩ := ih (i + 1) (ids ++ [row.id])
      refine ⟨?_, ?_, ?_⟩
      · rw [List.length_cons, ihlen, hcnt']
        omega
      · intro r hr
        rcases List.mem_cons.mp hr with h | h
        · rw [h]; exact ⟨hrowW.1, hrowdb, hrowW.2⟩
        · obtain ⟨h1, h2, h3⟩ := ihmem r h
          exact ⟨h1, h2, fun hmem => h3 (List.mem_append_left _ hmem)⟩
      · rw [List.map_cons, List.nodup_cons]
        refine ⟨?_, ihnodup⟩
        intro hmem
        obtain ⟨r, hr, hrid⟩ := List.mem_map.mp hmem
        exact (ihmem r hr).2.2
          (List.mem_append_right _ (by rw [hrid]; exact List.mem_singleton.mpr rfl))
    · have hzero : count db (matchesW wa ids) = 0 := by omega
      rw [hzero]
      rw [fmrLoop_stop db wa rf fuel i _ ids (by simp)]
      simp

/-- C2 counterexample: with the caller's filter `{ id: "a" }` over the store
`[{id:"b"}, {id:"a"}]` — distinct ids, population `P = 1`, the one draw in
range and returning a row — the loop's spread
`{ ...where, id: { notIn: [] } }` discards the caller's `id` condition, so
`findManyRandom(1, ...)` returns the row `"b"`, which does not match the
filter: "every returned row matches the filter" fails as stated. -/
theorem findManyRandom_filter_counterexample :
    count [Row.mk "b" 0, Row.mk "a" 0]
      (whereMatch (WhereArg.mk (some (fun s => s == "a")) (fun _ => true))) = 1 ∧
    (([Row.mk "b" 0, Row.mk "a" 0]).map Row.id).Nodup ∧
    findManyRandom [Row.mk "b" 0, Row.mk "a" 0]
      (WhereArg.mk (some (fun s => s == "a")) (fun _ => true)) (fun _ _ => 0) 1 =
      [Row.mk "b" 0] ∧
    ¬ (∀ r ∈ findManyRandom [Row.mk "b" 0, Row.mk "a" 0]
          (WhereArg.mk (some (fun s => s == "a")) (fun _ => true)) (fun _ _ => 0) 1,
        whereMatch (WhereArg.mk (some (fun s => s == "a")) (fun _ => true)) r =
          true) := by
  decide

/-- C2 amended: for a caller's filter with no top-level `id` condition (so
the loop's `id: { notIn: ... }` key replaces nothing), under a fixed store
with pairwise-distinct row ids (so each fetch at an offset strictly below
the remaining population size returns a row) and a random source with
`floor(random() * n) < n`, `findManyRandom(num, {where})` over a population
of `P` matching rows returns exactly `min num P` rows, with
pairwise-distinct ids, every one matching the filter. -/
theorem findManyRandom_correct (db : List Row) (wa : WhereArg)
    (rf : Nat → Nat → Nat) (num : Nat) (hn : (db.map Row.id).Nodup)
    (hid : wa.idCond = none) (hrf : ∀ i n, 0 < n → rf i n < n) :
    (findManyRandom db wa rf num).length = min num (count db (whereMatch wa)) ∧
    ((findManyRandom db wa rf num).map Row.id).Nodup ∧
    ∀ r ∈ findManyRandom db wa rf num, whereMatch wa r = true ∧ r ∈ db := by
  have h := fmrLoop_correct db wa rf hn hrf num 0 []
  rw [count_matchesW_nil, ← count_whereMatch_no_id db wa hid] at h
  unfold findManyRandom
  refine ⟨h.1, h.2.2, fun r hr => ⟨?_, (h.2.1 r hr).2.1⟩⟩
  have hrrest := (h.2.1 r hr).1
  simp [whereMatch, hid, hrrest]

/-- A small concrete store for witnesses. -/
def dbSample : List Row := [⟨"a", 1⟩, ⟨"b", 2⟩, ⟨"c", -3⟩]

/-- A concrete filter: positive payload. -/
def wSample : Row → Bool := fun r => decide (0 < r.payload)

/-- A concrete filter matching nothing. -/
def wNone : Row → Bool := fun _ => false

/-- A concrete admissible random source (always draws the last offset). -/
def rfSample : Nat → Nat → Nat := fun _ n => n - 1

/-- The concrete filter as a structured `where` object (no top-level `id`
condition). -/
def waSample : WhereArg := WhereArg.mk none wSample

/-- The match-nothing filter as a structured `where` object. -/
def waNone : WhereArg := WhereArg.mk none wNone

/-- C2 witness: on the concrete store (ids `a`,`b`,`c`, two matching rows),
requesting 2 rows returns `min 2 P` rows with distinct ids. -/
theorem findManyRandom_correct_witness :
    (findManyRandom dbSample waSample rfSample 2).length =
      min 2 (count dbSample (whereMatch waSample)) ∧
    ((findManyRandom dbSample waSample rfSample 2).map Row.id).Nodup :=
  ⟨(findManyRandom_correct dbSample waSample rfSample 2 (by decide) rfl
      (fun _ _ h => Nat.sub_lt h Nat.one_pos)).1,
   (findManyRandom_correct dbSample waSample rfSample 2 (by decide) rfl
      (fun _ _ h => Nat.sub_lt h Nat.one_pos)).2.1⟩

/-- The state invariants of the draw loop, along its recorded trace: every
recorded state has a non-negative counter; between consecutive states the
counter was positive, decreases by exactly one, and the exclusion list grows
by appending one identifier not already present. -/
theorem fmrLoop_trace_inv (db : List Row) (wa : WhereArg)
    (rf : Nat → Nat → Nat) :
    ∀ fuel i (n : Int) (ids : List String), 0 ≤ n →
      (fmrLoop db wa rf fuel i n ids).trace.head? = some (n, ids) ∧
      List.Chain' (fun s s' : Int × List String =>
        0 < s.1 ∧ s'.1 = s.1 - 1 ∧ ∃ a, a ∉ s.2 ∧ s'.2 = s.2 ++ [a])
        (fmrLoop db wa rf fuel i n ids).trace ∧
      ∀ s ∈ (fmrLoop db wa rf fuel i n ids).trace, 0 ≤ s.1 := by
  intro fuel
  induction fuel with
  | zero =>
    intro i n ids h
    rw [fmrLoop_zero]
    simp [h]
  | succ fuel ih =>
    intro i n ids h
    by_cases hg : 0 < n
    · cases hf : findFirst db (matchesW wa ids) (max 0 (rf i n.toNat)) with
      | none =>
        rw [fmrLoop_none db wa rf fuel i n ids hg hf]
        simp [h]
      | some row =>
        have hrowmem : row ∈ db.filter (matchesW wa ids) := by
          have h2 := hf
          unfold findFirst at h2
          exact List.getElem?_mem h2
        have hnotin : row.id ∉ ids := by
          have h2 := (List.mem_filter.mp hrowmem).2
          exact (by simpa [matchesW] using h2 : wa.rest row = true ∧ row.id ∉ ids).2
        rw [fmrLoop_some db wa rf fuel i n ids row hg hf]
        obtain ⟨ihhead, ihchain, ihpos⟩ :=
          ih (i + 1) (n - 1) (ids ++ [row.id]) (by omega)
        refine ⟨rfl, ?_, ?_⟩
        · rw [List.chain'_cons']
          refine ⟨?_, ihchain⟩
          intro y hy
          rw [ihhead] at hy
          have hy0 : (n - 1, ids ++ [row.id]) = y := by simpa using hy
          have hy' : y = (n - 1, ids ++ [row.id]) := hy0.symm
          rw [hy']
          exact ⟨hg, rfl, row.id, hnotin, rfl⟩
        · intro s hs
          rcases List.mem_cons.mp hs with hs1 | hs2
          · rw [hs1]; exact h
          · exact ihpos s hs2
    · rw [fmrLoop_stop db wa rf fuel i n ids hg]
      simp [h]

/-- C3: within one `findManyRandom` call, the exclusion set only grows —
each step appends exactly one identifier, one not already present (so an
identifier is added at most once) — the remaining-population counter starts
at the population count, was positive before each successful draw,
decreases by exactly one after it, and never becomes negative. -/
theorem findManyRandom_invariants (db : List Row) (wa : WhereArg)
    (rf : Nat → Nat → Nat) (num : Nat) :
    (findManyRandomTrace db wa rf num).head? =
      some ((count db (whereMatch wa) : Int), []) ∧
    List.Chain' (fun s s' : Int × List String =>
      0 < s.1 ∧ s'.1 = s.1 - 1 ∧ ∃ a, a ∉ s.2 ∧ s'.2 = s.2 ++ [a])
      (findManyRandomTrace db wa rf num) ∧
    ∀ s ∈ findManyRandomTrace db wa rf num, 0 ≤ s.1 := by
  have h := fmrLoop_trace_inv db wa rf num 0 (count db (whereMatch wa) : Int) []
    (Int.natCast_nonneg _)
  unfold findManyRandomTrace
  exact h

/-- The draw loop never returns more rows than its fuel (the requested
count). -/
theorem fmrLoop_rows_le_fuel (db : List Row) (wa : WhereArg)
    (rf : Nat → Nat → Nat) :
    ∀ fuel i (n : Int) (ids : List String),
      (fmrLoop db wa rf fuel i n ids).rows.length ≤ fuel := by
  intro fuel
  induction fuel with
  | zero =>
    intro i n ids
    rw [fmrLoop_zero]
    simp
  | succ fuel ih =>
    intro i n ids
    by_cases hg : 0 < n
    · cases hf : findFirst db (matchesW wa ids) (max 0 (rf i n.toNat)) with
      | none =>
        rw [fmrLoop_none db wa rf fuel i n ids hg hf]
        simp
      | some row =>
        rw [fmrLoop_some db wa rf fuel i n ids row hg hf]
        have h := ih (i + 1) (n - 1) (ids ++ [row.id])
        simp only [List.length_cons]
        omega
    · rw [fmrLoop_stop db wa rf fuel i n ids hg]
      simp

/-- C9: sampling recovers locally from degenerate and shortfall conditions
instead of raising an error: on an empty population `findRandom` returns
`null` and `findManyRandom` returns the empty list; when a draw returns no
row the loop records the diagnostic and stops early, the call returning only
the rows collected so far (and never more than requested). -/
theorem sampling_degenerate_recovery (db : List Row) (w : Row → Bool)
    (wa : WhereArg) (rf : Nat → Nat → Nat) (num fuel i : Nat) (n : Int)
    (ids : List String) :
    (count db w = 0 → findRandom db w rf = none) ∧
    (count db (whereMatch wa) = 0 → findManyRandom db wa rf num = []) ∧
    (0 < n → findFirst db (matchesW wa ids) (max 0 (rf i n.toNat)) = none →
      fmrLoop db wa rf (fuel + 1) i n ids = ⟨[], true, [(n, ids)]⟩) ∧
    (findManyRandom db wa rf num).length ≤ num := by
  refine ⟨?_, ?_, ?_, ?_⟩
  · intro h
    have hempty : db.filter w = [] := by
      unfold count at h
      exact List.length_eq_zero.mp h
    unfold findRandom findFirst
    rw [hempty]
    simp
  · intro h
    unfold findManyRandom
    rw [h]
    cases num with
    | zero => rw [fmrLoop_zero]
    | succ m =>
      rw [Nat.cast_zero, fmrLoop_stop db wa rf m 0 0 [] (by simp)]
  · intro hg hf
    exact fmrLoop_none db wa rf fuel i n ids hg hf
  · unfold findManyRandom
    exact fmrLoop_rows_le_fuel db wa rf num 0 _ []

/-- C9 witness: empty population gives `none`/`[]`; a failing draw (here on
an empty store with a stale positive counter) logs the diagnostic and stops
with no rows. -/
theorem sampling_degenerate_recovery_witness :
    findRandom dbSample wNone rfSample = none ∧
    findManyRandom dbSample waNone rfSample 5 = [] ∧
    fmrLoop ([] : List Row) waSample rfSample 1 0 1 [] = ⟨[], true, [(1, [])]⟩ :=
  ⟨(sampling_degenerate_recovery dbSample wNone waNone rfSample 5 0 0 1 []).1
     (by decide),
   (sampling_degenerate_recovery dbSample wNone waNone rfSample 5 0 0 1 []).2.1
     (by decide),
   (sampling_degenerate_recovery [] wNone waSample rfSample 5 0 0 1 []).2.2.1
     (by decide) (by decide)⟩
